import Mathlib

/-!
Verification of the mirroring orchestration core of `telemirror`
(`telemirror/mirroring.py`): the four event handlers of `EventHandlers`
(`on_new_message`, `on_album`, `on_edit_message`, `on_deleted_message`)
and `Mirroring.configure_mirroring`, shallowly embedded as pure Lean
functions.  External collaborators (the Telethon relay client, the
message filter, the identity-mapping database) appear as oracles /
explicit state:

* the database (`telemirror.storage.Database`) is a list of
  `MirrorMessage` rows, with insert / get_messages / delete_messages;
* relay-client calls (`send_message`, `send_file`, `edit_message`,
  `delete_messages`) are functions in an `Env` record returning
  `Except Exn _`, so a transport failure is an explicit exception value;
* each handler run returns an `HState`: the resulting database, the log
  entries written, and the ordered trace of relay / store calls it
  performed.  Python `try/except` is translated by running the handler
  body as `HState × Option Exn` and catching at the top (`catchTop`),
  exactly where the source places its `try` blocks.
-/

namespace Telemirror

/-- A poll object (`telethon.tl.types.Poll`), as much of it as the core
touches: an identifier and its question text. -/
structure Poll where
  pollId : Int
  question : String
deriving DecidableEq, Repr

/-- Message media (`message.media` in the source): either a poll wrapper
(`types.MessageMediaPoll`, carrying the poll) or some other media kind,
abstracted by a tag. -/
inductive MessageMedia where
  | messageMediaPoll (poll : Poll)
  | messageMediaOther (tag : Nat)
deriving DecidableEq, Repr

/-- The fields of a Telethon `types.Message` that the handlers read:
`id`, the text `message`, the optional `media`, the album `grouped_id`
(absent or `None` modelled as `none`), and the `edit_hide` flag. -/
structure Message where
  id : Int
  message : String
  media : Option MessageMedia
  grouped_id : Option Int
  edit_hide : Bool
deriving DecidableEq, Repr

/-- `types.InputMediaPoll(poll=...)`: a fresh poll input object built
from a poll. -/
structure InputMediaPoll where
  poll : Poll
deriving DecidableEq, Repr

/-- The outgoing message returned by a relay send: the handlers only
read its `id`. -/
structure OutMessage where
  id : Int
deriving DecidableEq, Repr

/-- The content argument of a `send_message` relay call: either the
`file=InputMediaPoll(...)` form used on the poll path, or a plain
message object on the generic path. -/
inductive SendPayload where
  | fileInput (f : InputMediaPoll)
  | message (m : Message)
deriving DecidableEq, Repr

/-- `telemirror.storage.MirrorMessage`: one row per (original message,
one mirror copy). -/
structure MirrorMessage where
  original_id : Int
  original_channel : Int
  mirror_id : Int
  mirror_channel : Int
deriving DecidableEq, Repr

/-- Modelled from the spec: the Identity Store
(`telemirror.storage.Database`, whose source is not under src/) is a
durable multiset of `MirrorMessage` rows; inserts are append-only and
`delete_messages` removes all rows matching
(`original_id`, `original_channel`). We model it as the ordered list of
rows. -/
abbrev Database := List MirrorMessage

/-- Modelled from the spec: `Database.insert(MirrorMessage) -> void` is
append-only. -/
def db_insert (db : Database) (row : MirrorMessage) : Database :=
  db ++ [row]

/-- Modelled from the spec:
`Database.get_messages(originalId, originalChannel)` returns the ordered
sequence of rows matching the key (possibly empty; the source's
`is None` check collapses with the emptiness check). -/
def db_get_messages (db : Database) (original_id original_channel : Int) :
    List MirrorMessage :=
  db.filter (fun r =>
    r.original_id == original_id && r.original_channel == original_channel)

/-- Modelled from the spec:
`Database.delete_messages(originalId, originalChannel)` removes all rows
matching the key. -/
def db_delete_messages (db : Database) (original_id original_channel : Int) :
    Database :=
  db.filter (fun r =>
    !(r.original_id == original_id && r.original_channel == original_channel))

/-- An exception value: the `IndexError` that
`source_message_ids[i]` can raise in `on_album`, or a transport-level
error from a relay-client call, abstracted by a code. -/
inductive Exn where
  | indexError
  | relayExn (code : Nat)
deriving DecidableEq, Repr

/-- One entry of the ordered trace of external calls a handler performs
(relay-client calls and identity-store operations). -/
inductive OpCall where
  | sendMessageCall (chat : Int) (payload : SendPayload)
  | sendFileCall (chat : Int) (captions : List String)
      (files : List (Option MessageMedia))
  | editMessageCall (chat : Int) (msgId : Int) (text : String)
  | deleteMessagesCall (chat : Int) (msgId : Int)
  | dbInsertCall (row : MirrorMessage)
  | dbGetCall (original_id chat : Int)
  | dbDeleteCall (original_id chat : Int)
deriving DecidableEq, Repr

/-- A structured log entry, one constructor per logging statement of the
source handlers. -/
inductive LogEntry where
  | infoNewMessage (chat : Int) (msg : Message)
  | infoNewAlbum (chat : Int)
  | infoEditMessage (chat : Int) (msgId : Int)
  | infoDeleteMessages (count : Nat) (chat : Int)
  | warnNoTargetChats (chat : Int)
  | warnNoTargetMessagesEdit (chat : Int)
  | warnNoTargetMessagesDelete (chat : Int) (msgId : Int)
  | errorExc (e : Exn)
deriving DecidableEq, Repr

/-- The state a handler run builds: the database contents, the log, and
the ordered trace of external calls. -/
structure HState where
  db : Database
  log : List LogEntry
  calls : List OpCall
deriving DecidableEq, Repr

def pushLog (e : LogEntry) (st : HState) : HState :=
  { st with log := st.log ++ [e] }

def pushCall (c : OpCall) (st : HState) : HState :=
  { st with calls := st.calls ++ [c] }

/-- The environment of a handler: the static router mapping
(`self._mirror_mapping.get`), the content filter
(`self._message_filter.process`, modelled from the spec as a pure total
function since `telemirror.messagefilters` is not under src/), and the
four relay-client operations, each an oracle that may fail with an
exception. -/
structure Env where
  mirror_mapping : Int → Option (List Int)
  message_filter : Message → Message
  send_message : Int → SendPayload → Except Exn (Option OutMessage)
  send_file : Int → List String → List (Option MessageMedia) →
      Except Exn (Option (List OutMessage))
  edit_message : Int → Int → String → Except Exn Unit
  delete_messages : Int → Int → Except Exn Unit

/-- Top-level `except Exception as e: self._logger.error(e, exc_info=True)`:
an exception escaping the handler body is caught and logged; a normal
result passes through. -/
def catchTop (r : HState × Option Exn) : HState :=
  match r with
  | (st, none) => st
  | (st, some e) => pushLog (.errorExc e) st

/-- The content argument `on_new_message` passes to `send_message`: the
poll branch tests the filtered message's media and builds
`InputMediaPoll` from the filtered poll; the generic branch passes
`event.message` (the original, unfiltered event message). -/
def sendPayloadFor (incoming_message event_message : Message) : SendPayload :=
  match incoming_message.media with
  | some (.messageMediaPoll p) => .fileInput ⟨p⟩
  | _ => .message event_message

/-- The per-target loop of `on_new_message`: send to each outgoing chat
in order, inserting a `MirrorMessage` row after each send that returned
an outgoing message; a relay exception aborts the loop (there is no
inner `try`). -/
def newMessageLoop (env : Env) (event_message incoming_message : Message)
    (incoming_chat : Int) :
    List Int → HState → HState × Option Exn
  | [], st => (st, none)
  | outgoing_chat :: rest, st =>
    let payload := sendPayloadFor incoming_message event_message
    let st1 := pushCall (.sendMessageCall outgoing_chat payload) st
    match env.send_message outgoing_chat payload with
    | .error e => (st1, some e)
    | .ok none =>
      newMessageLoop env event_message incoming_message incoming_chat rest st1
    | .ok (some outgoing_message) =>
      let row : MirrorMessage :=
        ⟨incoming_message.id, incoming_chat, outgoing_message.id, outgoing_chat⟩
      let st2 := pushCall (.dbInsertCall row)
        { st1 with db := db_insert st1.db row }
      newMessageLoop env event_message incoming_message incoming_chat rest st2

/-- A `NewMessage` event: the message, the source chat id, and the
album `grouped_id` (absent/None as `none`). -/
structure NewMessageEvent where
  message : Message
  chat_id : Int
  grouped_id : Option Int
deriving DecidableEq, Repr

/-- The state at the top of `on_new_message`, after the initial
`logger.info` and before the `try` block. -/
def newMessageInit (db : Database) (ev : NewMessageEvent) : HState :=
  ⟨db, [.infoNewMessage ev.chat_id ev.message], []⟩

/-- The `try` body of `on_new_message`: resolve targets (warn and return
when none), apply the content filter, then run the per-target loop. -/
def on_new_messageBody (env : Env) (ev : NewMessageEvent) (st : HState) :
    HState × Option Exn :=
  match env.mirror_mapping ev.chat_id with
  | none => (pushLog (.warnNoTargetChats ev.chat_id) st, none)
  | some outgoing_chats =>
    if outgoing_chats.length < 1 then
      (pushLog (.warnNoTargetChats ev.chat_id) st, none)
    else
      let incoming_message := env.message_filter ev.message
      newMessageLoop env ev.message incoming_message ev.chat_id
        outgoing_chats st

/-- `EventHandlers.on_new_message`: skip album-grouped messages
entirely, otherwise log the event and run the body under the top-level
`try/except`. -/
def on_new_message (env : Env) (db : Database) (ev : NewMessageEvent) :
    HState :=
  if ev.grouped_id.isSome then ⟨db, [], []⟩
  else catchTop (on_new_messageBody env ev (newMessageInit db ev))

/-- The insert loop of `on_album` for one target:
`for i, outgoing_message in enumerate(outgoing_messages)` inserting with
`source_message_ids[i]`; when the outgoing list is longer than the
source-id list, the index access raises `IndexError` after the first
`min` inserts. -/
def albumInsertLoop (incoming_chat outgoing_chat : Int) :
    List OutMessage → List Int → HState → HState × Option Exn
  | [], _, st => (st, none)
  | _ :: _, [], st => (st, some .indexError)
  | o :: os, sid :: sids, st =>
    let row : MirrorMessage := ⟨sid, incoming_chat, o.id, outgoing_chat⟩
    albumInsertLoop incoming_chat outgoing_chat os sids
      (pushCall (.dbInsertCall row) { st with db := db_insert st.db row })

/-- One iteration of the per-target loop of `on_album`: one grouped
`send_file` call; rows are inserted only when it returns more than one
outgoing message. -/
def albumPerTarget (env : Env) (incoming_chat : Int)
    (captions : List String) (files : List (Option MessageMedia))
    (source_message_ids : List Int) (outgoing_chat : Int) (st : HState) :
    HState × Option Exn :=
  let st1 := pushCall (.sendFileCall outgoing_chat captions files) st
  match env.send_file outgoing_chat captions files with
  | .error e => (st1, some e)
  | .ok none => (st1, none)
  | .ok (some outgoing_messages) =>
    if outgoing_messages.length > 1 then
      albumInsertLoop incoming_chat outgoing_chat outgoing_messages
        source_message_ids st1
    else (st1, none)

/-- The per-target loop of `on_album`; an exception (relay failure or
`IndexError`) aborts the loop, to be caught by the handler-level
`except`. -/
def albumTargetsLoop (env : Env) (incoming_chat : Int)
    (captions : List String) (files : List (Option MessageMedia))
    (source_message_ids : List Int) :
    List Int → HState → HState × Option Exn
  | [], st => (st, none)
  | c :: rest, st =>
    match albumPerTarget env incoming_chat captions files
        source_message_ids c st with
    | (st1, some e) => (st1, some e)
    | (st1, none) =>
      albumTargetsLoop env incoming_chat captions files source_message_ids
        rest st1

/-- An `Album` event: the grouped member messages and the source chat. -/
structure AlbumEvent where
  messages : List Message
  chat_id : Int
deriving DecidableEq, Repr

/-- The state at the top of `on_album`, after the initial `logger.info`. -/
def albumInit (db : Database) (ev : AlbumEvent) : HState :=
  ⟨db, [.infoNewAlbum ev.chat_id], []⟩

/-- The `try` body of `on_album`: resolve targets, filter each member
message, gather media / captions / ids into parallel lists, then run the
per-target loop. -/
def on_albumBody (env : Env) (ev : AlbumEvent) (st : HState) :
    HState × Option Exn :=
  match env.mirror_mapping ev.chat_id with
  | none => (pushLog (.warnNoTargetChats ev.chat_id) st, none)
  | some outgoing_chats =>
    if outgoing_chats.length < 1 then
      (pushLog (.warnNoTargetChats ev.chat_id) st, none)
    else
      let filtered := ev.messages.map env.message_filter
      let files := filtered.map Message.media
      let captions := filtered.map Message.message
      let source_message_ids := filtered.map Message.id
      albumTargetsLoop env ev.chat_id captions files source_message_ids
        outgoing_chats st

/-- `EventHandlers.on_album`. -/
def on_album (env : Env) (db : Database) (ev : AlbumEvent) : HState :=
  catchTop (on_albumBody env ev (albumInit db ev))

/-- A `MessageEdited` event. -/
structure MessageEditedEvent where
  message : Message
  chat_id : Int
deriving DecidableEq, Repr

/-- The per-row loop of `on_edit_message`: edit every mapped mirror
message with the filtered text; a relay exception aborts the loop (there
is no inner `try`). -/
def editLoop (env : Env) (text : String) :
    List MirrorMessage → HState → HState × Option Exn
  | [], st => (st, none)
  | om :: rest, st =>
    let st1 := pushCall (.editMessageCall om.mirror_channel om.mirror_id text) st
    match env.edit_message om.mirror_channel om.mirror_id text with
    | .error e => (st1, some e)
    | .ok _ => editLoop env text rest st1

/-- The state at the top of `on_edit_message`, after the initial
`logger.info`. -/
def editInit (db : Database) (ev : MessageEditedEvent) : HState :=
  ⟨db, [.infoEditMessage ev.chat_id ev.message.id], []⟩

/-- The `try` body of `on_edit_message`: look up mirror rows (warn and
return when none), filter the edited message, then run the per-row edit
loop. -/
def on_edit_messageBody (env : Env) (ev : MessageEditedEvent) (st : HState) :
    HState × Option Exn :=
  let st1 := pushCall (.dbGetCall ev.message.id ev.chat_id) st
  let outgoing_messages := db_get_messages st1.db ev.message.id ev.chat_id
  if outgoing_messages.length < 1 then
    (pushLog (.warnNoTargetMessagesEdit ev.chat_id) st1, none)
  else
    let incoming_message := env.message_filter ev.message
    editLoop env incoming_message.message outgoing_messages st1

/-- `EventHandlers.on_edit_message`: skip hidden edits entirely,
otherwise log and run the body under the top-level `try/except`. -/
def on_edit_message (env : Env) (db : Database) (ev : MessageEditedEvent) :
    HState :=
  if ev.message.edit_hide then ⟨db, [], []⟩
  else catchTop (on_edit_messageBody env ev (editInit db ev))

/-- A `MessageDeleted` event: the deleted original ids and the chat. -/
structure MessageDeletedEvent where
  deleted_ids : List Int
  chat_id : Int
deriving DecidableEq, Repr

/-- The inner loop of `on_deleted_message` over one id's mirror rows:
each downstream `delete_messages` relay call is wrapped in its own
`try/except`, so a failure is logged and the loop continues. -/
def deleteMirrorLoop (env : Env) :
    List MirrorMessage → HState → HState
  | [], st => st
  | dm :: rest, st =>
    let st1 := pushCall (.deleteMessagesCall dm.mirror_channel dm.mirror_id) st
    let st2 :=
      match env.delete_messages dm.mirror_channel dm.mirror_id with
      | .error e => pushLog (.errorExc e) st1
      | .ok _ => st1
    deleteMirrorLoop env rest st2

/-- One iteration of `on_deleted_message`'s loop over deleted ids: look
up the id's mirror rows (warn and continue when none), delete the store
rows for the key, then attempt each downstream delete. -/
def deletePerId (env : Env) (incoming_chat deleted_id : Int) (st : HState) :
    HState :=
  let st1 := pushCall (.dbGetCall deleted_id incoming_chat) st
  let deleting_messages := db_get_messages st1.db deleted_id incoming_chat
  if deleting_messages.length < 1 then
    pushLog (.warnNoTargetMessagesDelete incoming_chat deleted_id) st1
  else
    let st2 := pushCall (.dbDeleteCall deleted_id incoming_chat)
      { st1 with db := db_delete_messages st1.db deleted_id incoming_chat }
    deleteMirrorLoop env deleting_messages st2

/-- The loop of `on_deleted_message` over the deleted ids. -/
def deleteIdsLoop (env : Env) (incoming_chat : Int) :
    List Int → HState → HState
  | [], st => st
  | i :: rest, st =>
    deleteIdsLoop env incoming_chat rest (deletePerId env incoming_chat i st)

/-- The state at the top of `on_deleted_message`, after the initial
`logger.info`. -/
def deleteInit (db : Database) (ev : MessageDeletedEvent) : HState :=
  ⟨db, [.infoDeleteMessages ev.deleted_ids.length ev.chat_id], []⟩

/-- The `try` body of `on_deleted_message`: every fallible call inside
it is handled (store ops are total, downstream deletes have their own
inner `try`), so the body never raises. -/
def on_deleted_messageBody (env : Env) (ev : MessageDeletedEvent)
    (st : HState) : HState × Option Exn :=
  (deleteIdsLoop env ev.chat_id ev.deleted_ids st, none)

/-- `EventHandlers.on_deleted_message`. -/
def on_deleted_message (env : Env) (db : Database)
    (ev : MessageDeletedEvent) : HState :=
  catchTop (on_deleted_messageBody env ev (deleteInit db ev))

/-- A `logging.Logger`, identified by its name
(`logging.getLogger` returns the per-name singleton). -/
structure Logger where
  name : String
deriving DecidableEq, Repr

/-- `logging.getLogger(name)`. -/
def logging_getLogger (s : String) : Logger := ⟨s⟩

/-- The module `__name__` of `telemirror.mirroring`. -/
def telemirror_module_name : String := "telemirror.mirroring"

/-- The value passed as the `logger` argument of `configure_mirroring`:
a string, an actual `logging.Logger`, the default `None`, or any other
value (abstracted by a tag). -/
inductive LoggerArg where
  | strArg (s : String)
  | loggerArg (l : Logger)
  | noneArg
  | otherArg (tag : Nat)
deriving DecidableEq, Repr

/-- One `add_event_handler` registration performed by
`configure_mirroring`. -/
inductive RegisteredHandler where
  | newMessage
  | album
  | messageEdited
  | messageDeleted
deriving DecidableEq, Repr

/-- The attributes `configure_mirroring` sets on the client, plus the
ordered list of event-handler registrations it performs. -/
structure ConfiguredMirroring where
  source_chats : List Int
  mirror_mapping : Int → Option (List Int)
  database : Database
  message_filter : Message → Message
  logger : Logger
  event_handlers : List RegisteredHandler

/-- `Mirroring.configure_mirroring`: store the collaborators, resolve
the `logger` argument (a string by name via `logging.getLogger`; any
non-`Logger` value, `None` included, falls back to the module logger),
then register the handlers — new-message and album always, edit and
delete unless disabled. -/
def configure_mirroring (source_chats : List Int)
    (mirror_mapping : Int → Option (List Int)) (database : Database)
    (message_filter : Message → Message)
    (disable_edit disable_delete : Bool) (logger : LoggerArg) :
    ConfiguredMirroring :=
  let resolved : Logger :=
    match logger with
    | .strArg s => logging_getLogger s
    | .loggerArg l => l
    | _ => logging_getLogger telemirror_module_name
  { source_chats := source_chats
    mirror_mapping := mirror_mapping
    database := database
    message_filter := message_filter
    logger := resolved
    event_handlers :=
      [.newMessage, .album]
        ++ (if disable_edit then [] else [.messageEdited])
        ++ (if disable_delete then [] else [.messageDeleted]) }

/-! ### Concrete inputs used by counterexamples and witnesses -/

/-- A plain non-poll text message, id 5. -/
def msgPlain : Message := ⟨5, "hi", none, none, false⟩

/-- A sample poll. -/
def pollQ : Poll := ⟨1, "q"⟩

/-- An environment whose router maps chat 100 to targets `[200, 300]`
and whose `send_message` fails for chat 200 but succeeds for others. -/
def envFailFirst : Env where
  mirror_mapping := fun c => if c = 100 then some [200, 300] else none
  message_filter := id
  send_message := fun chat _ =>
    if chat = 200 then .error (.relayExn 7) else .ok (some ⟨51⟩)
  send_file := fun _ _ _ => .ok none
  edit_message := fun _ _ _ => .ok ()
  delete_messages := fun _ _ => .ok ()

/-- An environment with a single target chat 200, a filter that rewrites
the message text, and an always-succeeding `send_message`. -/
def envRewrite : Env where
  mirror_mapping := fun c => if c = 100 then some [200] else none
  message_filter := fun m => { m with message := "FILTERED" }
  send_message := fun _ _ => .ok (some ⟨50⟩)
  send_file := fun _ _ _ => .ok none
  edit_message := fun _ _ _ => .ok ()
  delete_messages := fun _ _ => .ok ()

/-- An environment in which every relay call fails. -/
def envAllFail : Env where
  mirror_mapping := fun c => if c = 100 then some [200] else none
  message_filter := id
  send_message := fun _ _ => .error (.relayExn 1)
  send_file := fun _ _ _ => .error (.relayExn 2)
  edit_message := fun _ _ _ => .error (.relayExn 3)
  delete_messages := fun _ _ => .error (.relayExn 4)

/-- An environment whose filter replaces the media with a poll, so the
filtered message takes the poll path. -/
def envPollFilter : Env where
  mirror_mapping := fun c => if c = 100 then some [200] else none
  message_filter := fun m => { m with media := some (.messageMediaPoll pollQ) }
  send_message := fun _ _ => .ok none
  send_file := fun _ _ _ => .ok none
  edit_message := fun _ _ _ => .ok ()
  delete_messages := fun _ _ => .ok ()

/-- An environment whose grouped send returns two outgoing messages for
chat 200. -/
def envAlbumTwo : Env where
  mirror_mapping := fun c => if c = 100 then some [200] else none
  message_filter := id
  send_message := fun _ _ => .ok none
  send_file := fun chat _ _ =>
    if chat = 200 then .ok (some [⟨70⟩, ⟨71⟩]) else .ok none
  edit_message := fun _ _ _ => .ok ()
  delete_messages := fun _ _ => .ok ()

/-- A database holding one mirror row (5, 100) ↦ (200, 50). -/
def dbOneRow : Database := [⟨5, 100, 50, 200⟩]

/-- A database holding two mirror rows for original (5, 100) and one for
original (7, 100). -/
def dbThreeRows : Database := [⟨5, 100, 50, 200⟩, ⟨5, 100, 51, 300⟩, ⟨7, 100, 52, 300⟩]

/-! ### Helper lemmas -/

@[simp] theorem pushCall_db (c : OpCall) (st : HState) :
    (pushCall c st).db = st.db := rfl

@[simp] theorem pushCall_log (c : OpCall) (st : HState) :
    (pushCall c st).log = st.log := rfl

@[simp] theorem pushCall_calls (c : OpCall) (st : HState) :
    (pushCall c st).calls = st.calls ++ [c] := rfl

@[simp] theorem pushLog_db (e : LogEntry) (st : HState) :
    (pushLog e st).db = st.db := rfl

@[simp] theorem pushLog_log (e : LogEntry) (st : HState) :
    (pushLog e st).log = st.log ++ [e] := rfl

@[simp] theorem pushLog_calls (e : LogEntry) (st : HState) :
    (pushLog e st).calls = st.calls := rfl

@[simp] theorem newMessageInit_db (db : Database) (ev : NewMessageEvent) :
    (newMessageInit db ev).db = db := rfl

@[simp] theorem newMessageInit_calls (db : Database) (ev : NewMessageEvent) :
    (newMessageInit db ev).calls = [] := rfl

@[simp] theorem albumInit_db (db : Database) (ev : AlbumEvent) :
    (albumInit db ev).db = db := rfl

@[simp] theorem albumInit_calls (db : Database) (ev : AlbumEvent) :
    (albumInit db ev).calls = [] := rfl

@[simp] theorem editInit_db (db : Database) (ev : MessageEditedEvent) :
    (editInit db ev).db = db := rfl

@[simp] theorem editInit_calls (db : Database) (ev : MessageEditedEvent) :
    (editInit db ev).calls = [] := rfl

@[simp] theorem deleteInit_db (db : Database) (ev : MessageDeletedEvent) :
    (deleteInit db ev).db = db := rfl

@[simp] theorem deleteInit_calls (db : Database) (ev : MessageDeletedEvent) :
    (deleteInit db ev).calls = [] := rfl

theorem catchTop_db (r : HState × Option Exn) : (catchTop r).db = r.1.db := by
  rcases r with ⟨st, x⟩
  cases x <;> rfl

theorem catchTop_calls (r : HState × Option Exn) :
    (catchTop r).calls = r.1.calls := by
  rcases r with ⟨st, x⟩
  cases x <;> rfl

theorem editLoop_db (env : Env) (text : String) (rows : List MirrorMessage)
    (st : HState) : ((editLoop env text rows st).1).db = st.db := by
  induction rows generalizing st with
  | nil => rfl
  | cons om rest ih =>
    unfold editLoop
    cases h : env.edit_message om.mirror_channel om.mirror_id text with
    | error e => rfl
    | ok u => exact ih _

theorem editLoop_calls_mem (env : Env) (text : String)
    (rows : List MirrorMessage) (st : HState) (x : OpCall)
    (hx : x ∈ ((editLoop env text rows st).1).calls) :
    x ∈ st.calls ∨ ∃ ch mid, x = OpCall.editMessageCall ch mid text := by
  induction rows generalizing st with
  | nil => exact Or.inl hx
  | cons om rest ih =>
    unfold editLoop at hx
    cases h : env.edit_message om.mirror_channel om.mirror_id text with
    | error e =>
      rw [h] at hx
      rcases List.mem_append.mp hx with h1 | h1
      · exact Or.inl h1
      · exact Or.inr ⟨om.mirror_channel, om.mirror_id, List.mem_singleton.mp h1⟩
    | ok u =>
      rw [h] at hx
      rcases ih _ hx with h1 | h1
      · rcases List.mem_append.mp h1 with h2 | h2
        · exact Or.inl h2
        · exact Or.inr ⟨om.mirror_channel, om.mirror_id, List.mem_singleton.mp h2⟩
      · exact Or.inr h1

theorem newMessageLoop_calls_mem (env : Env) (em im : Message) (ic : Int)
    (chats : List Int) (st : HState) (x : OpCall)
    (hx : x ∈ ((newMessageLoop env em im ic chats st).1).calls) :
    x ∈ st.calls ∨ (∃ c, x = OpCall.sendMessageCall c (sendPayloadFor im em))
      ∨ ∃ row, x = OpCall.dbInsertCall row := by
  induction chats generalizing st with
  | nil => exact Or.inl hx
  | cons c rest ih =>
    unfold newMessageLoop at hx
    cases h : env.send_message c (sendPayloadFor im em) with
    | error e =>
      simp only [h] at hx
      rcases List.mem_append.mp hx with h1 | h1
      · exact Or.inl h1
      · exact Or.inr (Or.inl ⟨c, List.mem_singleton.mp h1⟩)
    | ok res =>
      cases res with
      | none =>
        simp only [h] at hx
        rcases ih _ hx with h1 | h1
        · rcases List.mem_append.mp h1 with h2 | h2
          · exact Or.inl h2
          · exact Or.inr (Or.inl ⟨c, List.mem_singleton.mp h2⟩)
        · exact Or.inr h1
      | some om =>
        simp only [h] at hx
        rcases ih _ hx with h1 | h1
        · rcases List.mem_append.mp h1 with h2 | h2
          · rcases List.mem_append.mp h2 with h3 | h3
            · exact Or.inl h3
            · exact Or.inr (Or.inl ⟨c, List.mem_singleton.mp h3⟩)
          · exact Or.inr (Or.inr ⟨_, List.mem_singleton.mp h2⟩)
        · exact Or.inr h1

theorem albumInsertLoop_db (ic oc : Int) (outs : List OutMessage)
    (sids : List Int) (st : HState) :
    ((albumInsertLoop ic oc outs sids st).1).db =
      st.db ++ (sids.zip outs).map
        (fun p => MirrorMessage.mk p.1 ic p.2.id oc) := by
  induction outs generalizing sids st with
  | nil => simp [albumInsertLoop]
  | cons o os ih =>
    cases sids with
    | nil => simp [albumInsertLoop]
    | cons sid sids =>
      unfold albumInsertLoop
      rw [ih]
      simp [pushCall, db_insert]

theorem deleteMirrorLoop_db (env : Env) (rows : List MirrorMessage)
    (st : HState) : (deleteMirrorLoop env rows st).db = st.db := by
  induction rows generalizing st with
  | nil => rfl
  | cons dm rest ih =>
    unfold deleteMirrorLoop
    cases h : env.delete_messages dm.mirror_channel dm.mirror_id with
    | error e => simp only [h]; rw [ih]; rfl
    | ok u => simp only [h]; rw [ih]; rfl

theorem deleteMirrorLoop_calls (env : Env) (rows : List MirrorMessage)
    (st : HState) :
    (deleteMirrorLoop env rows st).calls = st.calls ++ rows.map
      (fun r => OpCall.deleteMessagesCall r.mirror_channel r.mirror_id) := by
  induction rows generalizing st with
  | nil => simp [deleteMirrorLoop]
  | cons dm rest ih =>
    unfold deleteMirrorLoop
    cases h : env.delete_messages dm.mirror_channel dm.mirror_id with
    | error e => simp only [h]; rw [ih]; simp [pushLog, pushCall]
    | ok u => simp only [h]; rw [ih]; simp [pushCall]

theorem db_get_messages_nil_iff (db : Database) (i c : Int) :
    db_get_messages db i c = [] ↔
      ∀ r ∈ db, ¬(r.original_id = i ∧ r.original_channel = c) := by
  constructor
  · intro h r hr hrc
    have : r ∈ db_get_messages db i c := by
      simp [db_get_messages, List.mem_filter, hr, hrc.1, hrc.2]
    rw [h] at this
    exact absurd this (List.not_mem_nil r)
  · intro h
    apply List.eq_nil_iff_forall_not_mem.mpr
    intro r hr
    rw [db_get_messages, List.mem_filter] at hr
    rcases hr with ⟨hrdb, hp⟩
    simp only [Bool.and_eq_true, beq_iff_eq] at hp
    exact h r hrdb hp

theorem db_get_delete_self (db : Database) (i c : Int) :
    db_get_messages (db_delete_messages db i c) i c = [] := by
  rw [db_get_messages_nil_iff]
  intro r hr hrc
  rw [db_delete_messages, List.mem_filter] at hr
  rcases hr with ⟨_, hp⟩
  simp [hrc.1, hrc.2] at hp

theorem db_get_delete_other (db : Database) (i c i' c' : Int)
    (h : db_get_messages db i c = []) :
    db_get_messages (db_delete_messages db i' c') i c = [] := by
  rw [db_get_messages_nil_iff] at h ⊢
  intro r hr
  rw [db_delete_messages, List.mem_filter] at hr
  exact h r hr.1

theorem deletePerId_db (env : Env) (chat i : Int) (st : HState) :
    (deletePerId env chat i st).db =
      if db_get_messages st.db i chat = [] then st.db
      else db_delete_messages st.db i chat := by
  unfold deletePerId
  by_cases h : db_get_messages st.db i chat = []
  · simp [pushCall, pushLog, h]
  · have hlen : ¬((db_get_messages st.db i chat).length < 1) := by
      cases hgl : db_get_messages st.db i chat with
      | nil => exact absurd hgl h
      | cons a l => simp
    simp only [pushCall, h, if_false]
    rw [if_neg hlen, deleteMirrorLoop_db]

theorem deletePerId_get_self (env : Env) (chat i : Int) (st : HState) :
    db_get_messages (deletePerId env chat i st).db i chat = [] := by
  rw [deletePerId_db]
  by_cases h : db_get_messages st.db i chat = []
  · rw [if_pos h]; exact h
  · rw [if_neg h]; exact db_get_delete_self st.db i chat

theorem deletePerId_get_preserve (env : Env) (chat i i' : Int) (st : HState)
    (h : db_get_messages st.db i chat = []) :
    db_get_messages (deletePerId env chat i' st).db i chat = [] := by
  rw [deletePerId_db]
  by_cases h' : db_get_messages st.db i' chat = []
  · rw [if_pos h']; exact h
  · rw [if_neg h']; exact db_get_delete_other st.db i chat i' chat h

theorem deleteIdsLoop_get_preserve (env : Env) (chat : Int) (ids : List Int)
    (st : HState) (i : Int) (h : db_get_messages st.db i chat = []) :
    db_get_messages (deleteIdsLoop env chat ids st).db i chat = [] := by
  induction ids generalizing st with
  | nil => exact h
  | cons j rest ih =>
    exact ih _ (deletePerId_get_preserve env chat i j st h)

theorem deleteIdsLoop_get_removed (env : Env) (chat : Int) (ids : List Int)
    (st : HState) (i : Int) (h : i ∈ ids) :
    db_get_messages (deleteIdsLoop env chat ids st).db i chat = [] := by
  revert h
  induction ids generalizing st with
  | nil => intro h; exact absurd h (List.not_mem_nil i)
  | cons j rest ih =>
    intro h
    rcases List.mem_cons.mp h with h1 | h1
    · subst h1
      exact deleteIdsLoop_get_preserve env chat rest _ i
        (deletePerId_get_self env chat i st)
    · exact ih _ h1

theorem deletePerId_noop (env : Env) (chat i : Int) (st : HState)
    (h : db_get_messages st.db i chat = []) :
    deletePerId env chat i st =
      ⟨st.db, st.log ++ [.warnNoTargetMessagesDelete chat i],
        st.calls ++ [.dbGetCall i chat]⟩ := by
  unfold deletePerId
  simp [pushCall, pushLog, h]

theorem deleteIdsLoop_noop (env : Env) (chat : Int) (ids : List Int)
    (st : HState) (h : ∀ i ∈ ids, db_get_messages st.db i chat = []) :
    deleteIdsLoop env chat ids st =
      ⟨st.db,
        st.log ++ ids.map (fun i => .warnNoTargetMessagesDelete chat i),
        st.calls ++ ids.map (fun i => .dbGetCall i chat)⟩ := by
  induction ids generalizing st with
  | nil => simp [deleteIdsLoop]
  | cons j rest ih =>
    unfold deleteIdsLoop
    rw [deletePerId_noop env chat j st (h j (List.mem_cons_self j rest))]
    rw [ih]
    · simp
    · intro i hi
      exact h i (List.mem_cons_of_mem j hi)

theorem newMessageLoop_first_error (env : Env) (em im : Message) (ic c : Int)
    (rest : List Int) (st : HState) (e : Exn)
    (h : env.send_message c (sendPayloadFor im em) = .error e) :
    newMessageLoop env em im ic (c :: rest) st =
      (pushCall (.sendMessageCall c (sendPayloadFor im em)) st, some e) := by
  unfold newMessageLoop
  simp only [h]

theorem editLoop_first_error (env : Env) (text : String) (om : MirrorMessage)
    (rest : List MirrorMessage) (st : HState) (e : Exn)
    (h : env.edit_message om.mirror_channel om.mirror_id text = .error e) :
    editLoop env text (om :: rest) st =
      (pushCall (.editMessageCall om.mirror_channel om.mirror_id text) st,
        some e) := by
  unfold editLoop
  simp only [h]

/-! ### Claim theorems -/

/-- C1, counterexample: the claim "a failure of the relay call for one
target chat (in the new-message handler) does not prevent the relay
attempts for the remaining targets" is false on the code.  With targets
`[200, 300]` for chat 100 and `send_message` failing for chat 200, the
handler performs exactly one relay call — the one to chat 200 — and
never attempts chat 300: the single `try` wraps the whole loop, so the
exception aborts it (the error is logged at handler level). -/
theorem c1_per_target_isolation_cx :
    (on_new_message envFailFirst [] ⟨msgPlain, 100, none⟩).calls =
      [OpCall.sendMessageCall 200 (SendPayload.message msgPlain)] ∧
    (on_new_message envFailFirst [] ⟨msgPlain, 100, none⟩).log =
      [LogEntry.infoNewMessage 100 msgPlain,
        LogEntry.errorExc (Exn.relayExn 7)] := by
  constructor <;> rfl

/-- C1, amended: in the new-message and edit handlers a failure of the
relay call for one target chat / mirror row is caught only by the
handler-level exception handler: the error is logged and the handler
returns, so the relay attempts for the remaining targets / rows of the
same event are not performed (per-row fault isolation exists only in the
delete handler's downstream loop).  First conjunct: a `send_message`
failure for the first target leaves exactly that one relay call in the
trace and ends the log with the error.  Second conjunct: an
`edit_message` failure for the first mirror row likewise. -/
theorem c1_handler_level_isolation :
    (∀ (env : Env) (db : Database) (ev : NewMessageEvent) (c : Int)
        (rest : List Int) (e : Exn),
      ev.grouped_id = none →
      env.mirror_mapping ev.chat_id = some (c :: rest) →
      (∀ p, (env.message_filter ev.message).media ≠
        some (MessageMedia.messageMediaPoll p)) →
      env.send_message c (SendPayload.message ev.message) = .error e →
      (on_new_message env db ev).calls =
        [OpCall.sendMessageCall c (SendPayload.message ev.message)] ∧
      (on_new_message env db ev).log =
        [LogEntry.infoNewMessage ev.chat_id ev.message,
          LogEntry.errorExc e]) ∧
    (∀ (env : Env) (db : Database) (ev : MessageEditedEvent)
        (om : MirrorMessage) (rest : List MirrorMessage) (e : Exn),
      ev.message.edit_hide = false →
      db_get_messages db ev.message.id ev.chat_id = om :: rest →
      env.edit_message om.mirror_channel om.mirror_id
        (env.message_filter ev.message).message = .error e →
      (on_edit_message env db ev).calls =
        [OpCall.dbGetCall ev.message.id ev.chat_id,
          OpCall.editMessageCall om.mirror_channel om.mirror_id
            (env.message_filter ev.message).message] ∧
      (on_edit_message env db ev).log =
        [LogEntry.infoEditMessage ev.chat_id ev.message.id,
          LogEntry.errorExc e]) := by
  constructor
  · intro env db ev c rest e hg hmap hnp hsend
    have hpay : sendPayloadFor (env.message_filter ev.message) ev.message =
        SendPayload.message ev.message := by
      unfold sendPayloadFor
      cases hm : (env.message_filter ev.message).media with
      | none => rfl
      | some md =>
        cases md with
        | messageMediaPoll p => exact absurd hm (hnp p)
        | messageMediaOther t => rfl
    have hlen : ¬((c :: rest).length < 1) := by simp
    have hrun : on_new_message env db ev =
        catchTop (newMessageLoop env ev.message (env.message_filter ev.message)
          ev.chat_id (c :: rest) (newMessageInit db ev)) := by
      unfold on_new_message
      rw [hg]
      simp only [Option.isSome_none, Bool.false_eq_true, if_false]
      unfold on_new_messageBody
      rw [hmap]
      simp only [if_neg hlen]
    rw [hrun, newMessageLoop_first_error env ev.message
      (env.message_filter ev.message) ev.chat_id c rest (newMessageInit db ev) e
      (by rw [hpay]; exact hsend)]
    rw [hpay]
    constructor <;> simp [catchTop, pushLog, pushCall, newMessageInit]
  · intro env db ev om rest e hhide hget hsend
    have hlen : ¬((om :: rest).length < 1) := by simp
    have hrun : on_edit_message env db ev =
        catchTop (editLoop env (env.message_filter ev.message).message
          (om :: rest)
          ⟨db, [.infoEditMessage ev.chat_id ev.message.id],
            [.dbGetCall ev.message.id ev.chat_id]⟩) := by
      unfold on_edit_message
      rw [hhide]
      simp only [Bool.false_eq_true, if_false]
      unfold on_edit_messageBody
      simp only [pushCall, editInit, List.nil_append, List.append_nil]
      rw [hget]
      simp only [if_neg hlen]
    rw [hrun, editLoop_first_error env _ om rest _ e hsend]
    constructor <;> rfl

/-- C1, witness for the amended theorem: concrete instances of both
conjuncts — new-message relay failure for chat 200 with a second target
300 pending, and an edit failure for the single mirror row of
(5, 100). -/
theorem c1_handler_level_isolation_witness :
    ((on_new_message envFailFirst [] ⟨msgPlain, 100, none⟩).calls =
      [OpCall.sendMessageCall 200 (SendPayload.message msgPlain)]) ∧
    ((on_edit_message envAllFail dbOneRow ⟨msgPlain, 100⟩).calls =
      [OpCall.dbGetCall 5 100, OpCall.editMessageCall 200 50 "hi"]) := by
  constructor
  · exact (c1_handler_level_isolation.1 envFailFirst [] ⟨msgPlain, 100, none⟩
      200 [300] (Exn.relayExn 7) rfl rfl (fun p h => Option.noConfusion h) rfl).1
  · exact (c1_handler_level_isolation.2 envAllFail dbOneRow ⟨msgPlain, 100⟩
      ⟨5, 100, 50, 200⟩ [] (Exn.relayExn 3) rfl rfl rfl).1

/-- C2, code evaluation at the failing input: for a non-poll message the
filter is applied (and here changes the text), yet the relay call passes
the original, unfiltered `event.message` — the generic send path uses
`event.message`, not the filtered `incoming_message`. -/
theorem c2_unfiltered_generic_send_eval :
    (on_new_message envRewrite [] ⟨msgPlain, 100, none⟩).calls =
      [OpCall.sendMessageCall 200 (SendPayload.message msgPlain),
        OpCall.dbInsertCall ⟨5, 100, 50, 200⟩] ∧
    envRewrite.message_filter msgPlain ≠ msgPlain := by
  constructor
  · rfl
  · decide

/-- C3: for each target chat of an album event whose grouped `send_file`
is performed, an absent result or one with at most one outgoing message
inserts zero `MirrorMessage` rows, while a result with k ≥ 2 outgoing
messages inserts exactly min(N, k) rows — N the number of album member
messages — each pairing the i-th outgoing message id with the i-th
(filtered) source message id positionally. -/
theorem c3_album_row_insertion (env : Env) (chat : Int)
    (captions : List String) (files : List (Option MessageMedia))
    (msgs : List Message) (c : Int) (st : HState) :
    ((albumPerTarget env chat captions files
        ((msgs.map env.message_filter).map Message.id) c st).1).db =
      st.db ++
        (match env.send_file c captions files with
          | .error _ => []
          | .ok none => []
          | .ok (some outs) =>
            if outs.length ≤ 1 then []
            else (((msgs.map env.message_filter).map Message.id).zip outs).map
              (fun p => MirrorMessage.mk p.1 chat p.2.id c)) ∧
    ((albumPerTarget env chat captions files
        ((msgs.map env.message_filter).map Message.id) c st).1).db.length =
      st.db.length +
        (match env.send_file c captions files with
          | .error _ => 0
          | .ok none => 0
          | .ok (some outs) =>
            if outs.length ≤ 1 then 0
            else min msgs.length outs.length) := by
  unfold albumPerTarget
  cases hsf : env.send_file c captions files with
  | error e =>
    simp only [hsf]
    constructor <;> simp [pushCall]
  | ok res =>
    cases res with
    | none =>
      simp only [hsf]
      constructor <;> simp [pushCall]
    | some outs =>
      simp only [hsf]
      by_cases hle : outs.length ≤ 1
      · have hng : ¬(outs.length > 1) := by omega
        simp only [if_neg hng, if_pos hle]
        constructor <;> simp [pushCall]
      · have hg : outs.length > 1 := by omega
        simp only [if_pos hg, if_neg hle]
        constructor
        · rw [albumInsertLoop_db]
          rfl
        · rw [albumInsertLoop_db]
          simp [pushCall, List.length_zip]

/-- C4: in the delete handler, for a deleted id that has mirror rows,
the Identity Store delete happens strictly before any downstream relay
delete: the call trace for the id is the store lookup, then the store
delete, then one relay delete per mirror row; and the resulting store
holds no rows for the key for every environment — in particular even
when every downstream delete fails. -/
theorem c4_store_delete_before_relay (env : Env) (chat i : Int) (st : HState)
    (h : db_get_messages st.db i chat ≠ []) :
    (deletePerId env chat i st).calls =
      st.calls ++ [OpCall.dbGetCall i chat, OpCall.dbDeleteCall i chat] ++
        (db_get_messages st.db i chat).map
          (fun r => OpCall.deleteMessagesCall r.mirror_channel r.mirror_id) ∧
    (deletePerId env chat i st).db = db_delete_messages st.db i chat ∧
    db_get_messages (deletePerId env chat i st).db i chat = [] := by
  have hlen : ¬((db_get_messages st.db i chat).length < 1) := by
    cases hg : db_get_messages st.db i chat with
    | nil => exact absurd hg h
    | cons a l => simp
  refine ⟨?_, ?_, ?_⟩
  · unfold deletePerId
    simp only [pushCall]
    rw [if_neg hlen, deleteMirrorLoop_calls]
    simp
  · rw [deletePerId_db, if_neg h]
  · exact deletePerId_get_self env chat i st

/-- C4, witness: the end-to-end scenario of the spec — id 5 in chat 100
with the single mirror row (200, 50), every downstream delete failing:
the store delete precedes the relay delete in the trace and the store
ends empty. -/
theorem c4_store_delete_before_relay_witness :
    db_get_messages dbOneRow 5 100 ≠ [] ∧
    (deletePerId envAllFail 100 5 ⟨dbOneRow, [], []⟩).calls =
      [OpCall.dbGetCall 5 100, OpCall.dbDeleteCall 5 100,
        OpCall.deleteMessagesCall 200 50] ∧
    (deletePerId envAllFail 100 5 ⟨dbOneRow, [], []⟩).db = [] := by
  have h : db_get_messages dbOneRow 5 100 ≠ [] := by decide
  obtain ⟨h1, h2, h3⟩ :=
    c4_store_delete_before_relay envAllFail 100 5 ⟨dbOneRow, [], []⟩ h
  refine ⟨h, ?_, ?_⟩
  · rw [h1]; rfl
  · rw [h2]; rfl

theorem catchTop_logged (r : HState × Option Exn) (e : Exn)
    (h : r.2 = some e) : LogEntry.errorExc e ∈ (catchTop r).log := by
  rcases r with ⟨st, x⟩
  cases x with
  | none => simp at h
  | some e' =>
    simp only [Option.some.injEq] at h
    subst h
    simp [catchTop]

theorem on_edit_messageBody_db (env : Env) (ev : MessageEditedEvent)
    (st : HState) : ((on_edit_messageBody env ev st).1).db = st.db := by
  unfold on_edit_messageBody
  simp only [pushCall_db]
  by_cases hnil : db_get_messages st.db ev.message.id ev.chat_id = []
  · simp [hnil]
  · have hlen :
        ¬((db_get_messages st.db ev.message.id ev.chat_id).length < 1) := by
      cases hg : db_get_messages st.db ev.message.id ev.chat_id with
      | nil => exact absurd hg hnil
      | cons a l => simp
    simp only [if_neg hlen]
    rw [editLoop_db]
    simp

theorem on_edit_message_calls_mem (env : Env) (db : Database)
    (ev : MessageEditedEvent) (x : OpCall)
    (h : x ∈ (on_edit_message env db ev).calls) :
    x = OpCall.dbGetCall ev.message.id ev.chat_id ∨
      ∃ ch mid t, x = OpCall.editMessageCall ch mid t := by
  unfold on_edit_message at h
  by_cases hh : ev.message.edit_hide
  · rw [if_pos hh] at h
    simp at h
  · rw [if_neg hh, catchTop_calls] at h
    unfold on_edit_messageBody at h
    simp only [pushCall_db, editInit_db] at h
    by_cases hlen :
      (db_get_messages db ev.message.id ev.chat_id).length < 1
    · rw [if_pos hlen] at h
      simp only [pushLog_calls, pushCall_calls, editInit_calls,
        List.nil_append] at h
      exact Or.inl (List.mem_singleton.mp h)
    · rw [if_neg hlen] at h
      rcases editLoop_calls_mem env _ _ _ x h with h1 | h1
      · simp only [pushCall_calls, editInit_calls, List.nil_append] at h1
        exact Or.inl (List.mem_singleton.mp h1)
      · rcases h1 with ⟨ch, mid, hx⟩
        exact Or.inr ⟨ch, mid, _, hx⟩

theorem on_new_message_send_payload (env : Env) (db : Database)
    (ev : NewMessageEvent) (chat : Int) (pay : SendPayload)
    (h : OpCall.sendMessageCall chat pay ∈ (on_new_message env db ev).calls) :
    pay = sendPayloadFor (env.message_filter ev.message) ev.message := by
  unfold on_new_message at h
  by_cases hg : ev.grouped_id.isSome
  · rw [if_pos hg] at h
    simp at h
  · rw [if_neg hg, catchTop_calls] at h
    unfold on_new_messageBody at h
    cases hm : env.mirror_mapping ev.chat_id with
    | none =>
      rw [hm] at h
      simp at h
    | some chats =>
      simp only [hm] at h
      by_cases hlen : chats.length < 1
      · rw [if_pos hlen] at h
        simp at h
      · simp only [if_neg hlen] at h
        rcases newMessageLoop_calls_mem env ev.message _ ev.chat_id chats _ _ h
          with h1 | h1 | h1
        · simp at h1
        · rcases h1 with ⟨c, hc⟩
          injection hc with hc1 hc2
        · rcases h1 with ⟨row, hrow⟩
          exact OpCall.noConfusion hrow

/-- C5: no exception escapes a handler to the event source.  Each
handler catches its body at the top: when the body of the new-message,
album, or edit handler ends in an exception, the handler's log records
that exception (and the handler returns an ordinary state); the delete
handler's body never produces an exception at all, every fallible call
inside it being individually handled. -/
theorem c5_handler_errors_caught (env : Env) (db : Database)
    (evN : NewMessageEvent) (evA : AlbumEvent) (evE : MessageEditedEvent)
    (evD : MessageDeletedEvent) (e1 e2 e3 : Exn) :
    (evN.grouped_id = none →
      (on_new_messageBody env evN (newMessageInit db evN)).2 = some e1 →
      LogEntry.errorExc e1 ∈ (on_new_message env db evN).log) ∧
    ((on_albumBody env evA (albumInit db evA)).2 = some e2 →
      LogEntry.errorExc e2 ∈ (on_album env db evA).log) ∧
    (evE.message.edit_hide = false →
      (on_edit_messageBody env evE (editInit db evE)).2 = some e3 →
      LogEntry.errorExc e3 ∈ (on_edit_message env db evE).log) ∧
    (on_deleted_messageBody env evD (deleteInit db evD)).2 = none := by
  refine ⟨?_, ?_, ?_, rfl⟩
  · intro hg hb
    unfold on_new_message
    rw [hg]
    simp only [Option.isSome_none, Bool.false_eq_true, if_false]
    exact catchTop_logged _ e1 hb
  · intro hb
    exact catchTop_logged _ e2 hb
  · intro hh hb
    unfold on_edit_message
    rw [hh]
    simp only [Bool.false_eq_true, if_false]
    exact catchTop_logged _ e3 hb

/-- C5, witness: with every relay call failing and one mirror row
present, each of the first three handlers logs its body's exception, and
the delete handler's body returns no exception. -/
theorem c5_handler_errors_caught_witness :
    LogEntry.errorExc (Exn.relayExn 1) ∈
      (on_new_message envAllFail dbOneRow ⟨msgPlain, 100, none⟩).log ∧
    LogEntry.errorExc (Exn.relayExn 2) ∈
      (on_album envAllFail dbOneRow ⟨[msgPlain], 100⟩).log ∧
    LogEntry.errorExc (Exn.relayExn 3) ∈
      (on_edit_message envAllFail dbOneRow ⟨msgPlain, 100⟩).log ∧
    (on_deleted_messageBody envAllFail ⟨[5], 100⟩
      (deleteInit dbOneRow ⟨[5], 100⟩)).2 = none := by
  obtain ⟨h1, h2, h3, h4⟩ := c5_handler_errors_caught envAllFail dbOneRow
    ⟨msgPlain, 100, none⟩ ⟨[msgPlain], 100⟩ ⟨msgPlain, 100⟩ ⟨[5], 100⟩
    (Exn.relayExn 1) (Exn.relayExn 2) (Exn.relayExn 3)
  exact ⟨h1 rfl (by decide), h2 (by decide), h3 rfl (by decide), h4⟩

/-- C6: a new-message event whose filtered message carries a poll is
relayed to every target through the poll path — every `send_message`
call in the trace carries the fresh `InputMediaPoll` built from the
filtered poll — and an event whose filtered message is not a poll never
takes the poll path: every `send_message` call carries the generic
message payload. -/
theorem c6_poll_path_selection :
    (∀ (env : Env) (db : Database) (ev : NewMessageEvent) (p : Poll),
      (env.message_filter ev.message).media =
        some (MessageMedia.messageMediaPoll p) →
      ∀ chat pay, OpCall.sendMessageCall chat pay ∈
        (on_new_message env db ev).calls →
      pay = SendPayload.fileInput ⟨p⟩) ∧
    (∀ (env : Env) (db : Database) (ev : NewMessageEvent),
      (∀ p, (env.message_filter ev.message).media ≠
        some (MessageMedia.messageMediaPoll p)) →
      ∀ chat pay, OpCall.sendMessageCall chat pay ∈
        (on_new_message env db ev).calls →
      pay = SendPayload.message ev.message) := by
  constructor
  · intro env db ev p hm chat pay h
    rw [on_new_message_send_payload env db ev chat pay h]
    unfold sendPayloadFor
    rw [hm]
  · intro env db ev hnp chat pay h
    rw [on_new_message_send_payload env db ev chat pay h]
    unfold sendPayloadFor
    cases hm : (env.message_filter ev.message).media with
    | none => rfl
    | some md =>
      cases md with
      | messageMediaPoll p => exact absurd hm (hnp p)
      | messageMediaOther t => rfl

/-- C6, witness: a filter that turns the message into a poll makes the
single relay call carry the fresh poll input; a non-poll filtered
message makes it carry the generic message payload. -/
theorem c6_poll_path_selection_witness :
    ((envPollFilter.message_filter msgPlain).media =
      some (MessageMedia.messageMediaPoll pollQ) ∧
     OpCall.sendMessageCall 200 (SendPayload.fileInput ⟨pollQ⟩) ∈
      (on_new_message envPollFilter [] ⟨msgPlain, 100, none⟩).calls ∧
     SendPayload.fileInput ⟨pollQ⟩ = SendPayload.fileInput ⟨pollQ⟩) ∧
    (OpCall.sendMessageCall 200 (SendPayload.message msgPlain) ∈
      (on_new_message envRewrite [] ⟨msgPlain, 100, none⟩).calls ∧
     SendPayload.message msgPlain = SendPayload.message msgPlain) := by
  constructor
  · refine ⟨by decide, by decide, ?_⟩
    exact c6_poll_path_selection.1 envPollFilter [] ⟨msgPlain, 100, none⟩
      pollQ (by decide) 200 (SendPayload.fileInput ⟨pollQ⟩) (by decide)
  · refine ⟨by decide, ?_⟩
    exact c6_poll_path_selection.2 envRewrite [] ⟨msgPlain, 100, none⟩
      (fun p h => Option.noConfusion h) 200 (SendPayload.message msgPlain)
      (by decide)

/-- C7: processing an edit event leaves the Identity Store unchanged:
the handler's resulting database equals the input database, and its call
trace contains no store insert and no store delete — for every
environment and edit event, whether or not rows were found and whether
or not relay edits succeed. -/
theorem c7_edit_store_frame (env : Env) (db : Database)
    (ev : MessageEditedEvent) :
    (on_edit_message env db ev).db = db ∧
    ((on_edit_message env db ev).calls.all (fun x =>
      match x with
      | OpCall.dbInsertCall _ => false
      | OpCall.dbDeleteCall _ _ => false
      | _ => true)) = true := by
  constructor
  · unfold on_edit_message
    by_cases hh : ev.message.edit_hide
    · rw [if_pos hh]
    · rw [if_neg hh, catchTop_db, on_edit_messageBody_db]
      rfl
  · rw [List.all_eq_true]
    intro x hx
    rcases on_edit_message_calls_mem env db ev x hx with h1 | ⟨ch, mid, t, h1⟩
    · subst h1; rfl
    · subst h1; rfl

theorem on_edit_message_no_rows (env : Env) (db : Database)
    (ev : MessageEditedEvent) (hhide : ev.message.edit_hide = false)
    (hget : db_get_messages db ev.message.id ev.chat_id = []) :
    on_edit_message env db ev =
      ⟨db, [.infoEditMessage ev.chat_id ev.message.id,
            .warnNoTargetMessagesEdit ev.chat_id],
        [.dbGetCall ev.message.id ev.chat_id]⟩ := by
  unfold on_edit_message
  rw [hhide]
  simp only [Bool.false_eq_true, if_false]
  unfold on_edit_messageBody
  simp only [pushCall_db, editInit_db]
  rw [hget]
  simp [catchTop, pushLog, pushCall, editInit]

/-- C8: once the delete handler has processed an event whose deleted ids
contain a given original id for a chat, a subsequently processed edit
event for the same (id, chat) finds no mirror rows and is a benign
no-op: the store is unchanged, the only call of the edit run is the
store lookup (no relay edit call), and the no-target-messages warning is
logged. -/
theorem c8_delete_then_edit_noop (env : Env) (db : Database)
    (evd : MessageDeletedEvent) (eve : MessageEditedEvent)
    (hchat : eve.chat_id = evd.chat_id)
    (hid : eve.message.id ∈ evd.deleted_ids)
    (hhide : eve.message.edit_hide = false) :
    (on_edit_message env (on_deleted_message env db evd).db eve).db =
      (on_deleted_message env db evd).db ∧
    (on_edit_message env (on_deleted_message env db evd).db eve).calls =
      [OpCall.dbGetCall eve.message.id eve.chat_id] ∧
    (on_edit_message env (on_deleted_message env db evd).db eve).log =
      [LogEntry.infoEditMessage eve.chat_id eve.message.id,
        LogEntry.warnNoTargetMessagesEdit eve.chat_id] := by
  have hget : db_get_messages (on_deleted_message env db evd).db
      eve.message.id eve.chat_id = [] := by
    rw [hchat]
    exact deleteIdsLoop_get_removed env evd.chat_id evd.deleted_ids
      (deleteInit db evd) eve.message.id hid
  rw [on_edit_message_no_rows env _ eve hhide hget]
  exact ⟨rfl, rfl, rfl⟩

/-- C8, witness: delete of id 5 in chat 100 over a store with two rows
for (5, 100), then an edit of the same message: the edit run performs
only the store lookup. -/
theorem c8_delete_then_edit_noop_witness :
    (on_edit_message envAllFail
      (on_deleted_message envAllFail dbThreeRows ⟨[5], 100⟩).db
      ⟨msgPlain, 100⟩).calls = [OpCall.dbGetCall 5 100] ∧
    (on_edit_message envAllFail
      (on_deleted_message envAllFail dbThreeRows ⟨[5], 100⟩).db
      ⟨msgPlain, 100⟩).db =
      (on_deleted_message envAllFail dbThreeRows ⟨[5], 100⟩).db := by
  obtain ⟨h1, h2, h3⟩ := c8_delete_then_edit_noop envAllFail dbThreeRows
    ⟨[5], 100⟩ ⟨msgPlain, 100⟩ rfl (by decide) rfl
  exact ⟨h2, h1⟩

/-- C9: delete processing is idempotent per event: a second run of the
delete handler over the same event mutates nothing — the store is
unchanged, the second run's call trace is exactly the per-id store
lookups (no store delete and no downstream relay delete call), and each
id is logged as having no target messages. -/
theorem c9_delete_idempotent (env : Env) (db : Database)
    (ev : MessageDeletedEvent) :
    (on_deleted_message env (on_deleted_message env db ev).db ev).db =
      (on_deleted_message env db ev).db ∧
    (on_deleted_message env (on_deleted_message env db ev).db ev).calls =
      ev.deleted_ids.map (fun i => OpCall.dbGetCall i ev.chat_id) ∧
    (on_deleted_message env (on_deleted_message env db ev).db ev).log =
      LogEntry.infoDeleteMessages ev.deleted_ids.length ev.chat_id ::
        ev.deleted_ids.map
          (fun i => LogEntry.warnNoTargetMessagesDelete ev.chat_id i) := by
  have hall : ∀ i ∈ ev.deleted_ids,
      db_get_messages (deleteInit (on_deleted_message env db ev).db ev).db i
        ev.chat_id = [] := by
    intro i hi
    rw [deleteInit_db]
    exact deleteIdsLoop_get_removed env ev.chat_id ev.deleted_ids
      (deleteInit db ev) i hi
  have hrun : on_deleted_message env (on_deleted_message env db ev).db ev =
      deleteIdsLoop env ev.chat_id ev.deleted_ids
        (deleteInit (on_deleted_message env db ev).db ev) := rfl
  rw [hrun, deleteIdsLoop_noop env ev.chat_id ev.deleted_ids _ hall]
  refine ⟨rfl, by simp, by simp [deleteInit]⟩

/-- C10: `configure_mirroring` is total in its `logger` argument (in the
embedding every branch of the isinstance chain is covered by a
constructor of `LoggerArg`) and always ends with the dispatcher's logger
set to a `logging.Logger`: a string is resolved by name, a logger object
is kept, and `None` (the default) or any other value falls back to the
module logger. -/
theorem c10_configure_logger_total (source_chats : List Int)
    (mm : Int → Option (List Int)) (database : Database)
    (mf : Message → Message) (de dd : Bool) :
    (∀ s, (configure_mirroring source_chats mm database mf de dd
      (.strArg s)).logger = logging_getLogger s) ∧
    (∀ l, (configure_mirroring source_chats mm database mf de dd
      (.loggerArg l)).logger = l) ∧
    ((configure_mirroring source_chats mm database mf de dd
      .noneArg).logger = logging_getLogger telemirror_module_name) ∧
    (∀ t, (configure_mirroring source_chats mm database mf de dd
      (.otherArg t)).logger = logging_getLogger telemirror_module_name) :=
  ⟨fun _ => rfl, fun _ => rfl, rfl, fun _ => rfl⟩

end Telemirror
